import Mathlib

set_option autoImplicit false

/-!
# Verification of the lilguy core (dylanwh/lilguy)

A shallow embedding, in Lean 4, of the parts of the lilguy source that the
checked properties are about:

* the persistent global store (`src/database/global.rs`),
* the database actor handle (`src/database.rs`),
* the route table (`src/routes.rs`),
* the hot-reload controller (`src/runtime.rs`),
* the change detector (`src/watch.rs`),
* the HTTP adapter and serve loop (`src/runtime/http.rs`, `src/command/serve.rs`).

Rust hash maps keyed by integers, strings or paths are modelled as
association lists; SQL tables are modelled by the finite maps their UNIQUE
key columns induce; fallible Rust functions return `Except`; external-crate
codecs (serde_json / serde_sqlite_jsonb, the xxh3 and crc32 hashes, HTTP
header-name parsing) are abstracted as opaque data or function parameters,
which is noted at each definition.
-/

/-! ## Association-list helpers (model of HashMap / UNIQUE SQL key columns) -/

/-- Lookup in an association list (first entry with the given key). -/
def assocGet {α β : Type} [DecidableEq α] : List (α × β) → α → Option β
  | [], _ => none
  | (k, v) :: rest, key => if k = key then some v else assocGet rest key

/-- Replace the entry with the given key, or append a fresh one: the model of
`INSERT OR REPLACE` on a UNIQUE column and of `HashMap::insert`. -/
def assocSet {α β : Type} [DecidableEq α] : List (α × β) → α → β → List (α × β)
  | [], key, v => [(key, v)]
  | (k, w) :: rest, key, v =>
      if k = key then (key, v) :: rest else (k, w) :: assocSet rest key v

/-- Delete every entry with the given key: the model of `DELETE ... WHERE`
(and of dropping by key, where absence is not an error). -/
def assocDel {α β : Type} [DecidableEq α] : List (α × β) → α → List (α × β)
  | [], _ => []
  | (k, v) :: rest, key =>
      if k = key then assocDel rest key else (k, v) :: assocDel rest key

/-! ## JSON values

Model of `serde_json::Value`, the value type the Lua bridge stores in a
global table (`serde_sqlite_jsonb` encoding to and from the `value JSONB`
column is abstracted as the identity on these values). -/

inductive Json where
  | null : Json
  | bool (b : Bool) : Json
  | num (n : Int) : Json
  | str (s : String) : Json
  | arr (items : List Json) : Json
  | obj (fields : List (String × Json)) : Json

/-! ## Global table keys (`src/database/global.rs`) -/

/-- `GlobalTableKey` (global.rs:35-39): an integer key or a string key. -/
inductive GlobalTableKey where
  | int (k : Int) : GlobalTableKey
  | str (s : String) : GlobalTableKey
deriving DecidableEq, Repr

/-- `GlobalTableKey::column` (global.rs:41-48): the SQL column a key is
stored in and looked up by. -/
def GlobalTableKey.column : GlobalTableKey → String
  | .int _ => "key_int"
  | .str _ => "key_str"

/-- The fragment of Lua values that reaches the global-table metamethods as
a key: either a Lua integer, or any other value represented by its
`to_string()` form (the interpreter's tostring conversion is external; keys
on which it fails raise before any store operation happens). -/
inductive LuaKey where
  | integer (i : Int) : LuaKey
  | other (stringForm : String) : LuaKey
deriving DecidableEq, Repr

/-- `TryFrom<LuaValue> for GlobalTableKey` (global.rs:80-94): integers map
to `Int`, every other value maps to `Str` of its string form. This is the
conversion the `Index` metamethod (read path) applies via `get`. -/
def GlobalTableKey.tryFromLua : LuaKey → GlobalTableKey
  | .integer i => .int i
  | .other s => .str s

/-- The inline key conversion in the `NewIndex` metamethod (global.rs:390-393):
`LuaValue::Integer(i) => from(i), key => from(key.to_string()?)`. This is the
conversion the write path applies. -/
def luaNewIndexKey : LuaKey → GlobalTableKey
  | .integer i => .int i
  | .other s => .str s

/-! ## Global table state and operations (`src/database/global.rs`)

One SQL table `(key_int INTEGER UNIQUE, key_str TEXT UNIQUE, value JSONB,
CHECK ((key_int IS NULL) != (key_str IS NULL)))`. Because each row carries
exactly one of the two keys and both columns are UNIQUE, the table is
faithfully represented by two finite maps, one per key column. -/

structure GlobalTableState where
  intRows : List (Int × Json)
  strRows : List (String × Json)

/-- `GlobalTable::get` (global.rs:142-168): single-row lookup on the key's
column, decoded from JSONB; `None` when absent. -/
def GlobalTable.get (st : GlobalTableState) (key : GlobalTableKey) : Option Json :=
  match key with
  | .int i => assocGet st.intRows i
  | .str s => assocGet st.strRows s

/-- `GlobalTable::set` (global.rs:170-191): `INSERT OR REPLACE INTO t
(column, value) VALUES (?, jsonb(?))` on the key's column. -/
def GlobalTable.set (st : GlobalTableState) (key : GlobalTableKey) (v : Json) :
    GlobalTableState :=
  match key with
  | .int i => { st with intRows := assocSet st.intRows i v }
  | .str s => { st with strRows := assocSet st.strRows s v }

/-- `GlobalTable::del` (global.rs:193-213): `DELETE FROM t WHERE column = ?`;
absent keys are not an error. -/
def GlobalTable.del (st : GlobalTableState) (key : GlobalTableKey) : GlobalTableState :=
  match key with
  | .int i => { st with intRows := assocDel st.intRows i }
  | .str s => { st with strRows := assocDel st.strRows s }

/-- Model of the rusqlite errors `GlobalTable::len` can surface through the
`row.get(0)` conversion of the selected `max(key_int)` into `usize`. -/
inductive RusqliteError where
  /-- SQL NULL read into a non-nullable Rust type (`usize`). -/
  | invalidColumnType : RusqliteError
  /-- negative integer read into `usize`. -/
  | integralValueOutOfRange : RusqliteError
deriving DecidableEq, Repr

/-- `SELECT max(key_int) FROM t`: SQL `max` ignores NULLs (the string-keyed
rows) and yields NULL when no integer-keyed row exists. -/
def sqlMaxKeyInt (rows : List (Int × Json)) : Option Int :=
  match rows with
  | [] => none
  | (k, _) :: rest =>
      match sqlMaxKeyInt rest with
      | none => some k
      | some m => some (max k m)

/-- `GlobalTable::len` (global.rs:218-234): runs `SELECT max(key_int) FROM t`
and reads the single result column into a `usize`. A NULL result (empty
table, or no integer-keyed row) fails the conversion with
`InvalidColumnType`; a negative maximum fails with out-of-range. -/
def GlobalTable.len (st : GlobalTableState) : Except RusqliteError Int :=
  match sqlMaxKeyInt st.intRows with
  | none => .error .invalidColumnType
  | some m => if m < 0 then .error .integralValueOutOfRange else .ok m

/-- The `Index` metamethod of `GlobalTable` (global.rs:374-385): converts the
Lua key and runs `get`; a missing row reads as Lua `nil` (`none`). -/
def GlobalTable.luaIndex (st : GlobalTableState) (key : LuaKey) : Option Json :=
  GlobalTable.get st (GlobalTableKey.tryFromLua key)

/-- The `NewIndex` metamethod of `GlobalTable` (global.rs:387-401): converts
the Lua key; a `nil` value (`none`) deletes the row, any other value is
stored with `set`. -/
def GlobalTable.luaNewIndex (st : GlobalTableState) (key : LuaKey) (value : Option Json) :
    GlobalTableState :=
  let k := luaNewIndexKey key
  match value with
  | none => GlobalTable.del st k
  | some v => GlobalTable.set st k v

/-! ## The top-level `global` namespace (`src/database/global.rs`) -/

/-- `GlobalTable::sql_name` (global.rs:114-116): the SQL identifier derived
from the logical name by doubled-quote escaping, prefixed with
`lg_global_` and quoted. -/
def sql_name (name : String) : String :=
  "\"lg_global_" ++ name.replace "\"" "\"\"" ++ "\""

/-- The set of backing SQL tables of the store, keyed by their SQL
identifier. -/
def GlobalStore := List (String × GlobalTableState)

/-- `GlobalTable::destroy` (global.rs:264-275): `DROP TABLE IF EXISTS` on the
table's SQL name (absence is not an error). -/
def GlobalTable.destroy (store : GlobalStore) (name : String) : GlobalStore :=
  assocDel store (sql_name name)

/-- The `NewIndex` metamethod of `Global` (global.rs:356-369): assigning
`nil` (`none`) destroys the named table's backing SQL table; assigning any
other value performs no SQL and raises `cannot set value on global`. The
returned pair is (store after the call, raised error if any). -/
def Global.luaNewIndex (store : GlobalStore) (name : String) (value : Option Json) :
    GlobalStore × Option String :=
  match value with
  | none => (GlobalTable.destroy store name, none)
  | some _ => (store, some "cannot set value on global")

/-! ## Route table (`src/routes.rs`)

`Routes` wraps a `path_tree::PathTree<LuaFunction>` (routes.rs:10-11);
handlers are opaque, so the tree is modelled by the finite map from pattern
strings to handlers that it stores, with `insert` returning the node index
the external crate reports. `path_tree::PathTree::insert` takes any `&str`
and returns a `usize`; it has no failure path. -/

structure Routes (H : Type) where
  tree : List (String × H)

/-- `PathTree::insert` as used through `Deref` (routes.rs:60): stores the
handler under the pattern string and reports a node index. -/
def Routes.insert {H : Type} (r : Routes H) (key : String) (f : H) : Routes H × Nat :=
  ({ tree := assocSet r.tree key f }, (assocSet r.tree key f).length)

/-- The `NewIndex` metamethod of `Routes` (routes.rs:57-64):
`let size = this.insert(&key, function); Ok(size)` — the key string is
inserted as given, with no validation of its shape, and the metamethod
returns without raising. -/
def Routes.luaNewIndex {H : Type} (r : Routes H) (key : String) (f : H) :
    Except String (Routes H × Nat) :=
  .ok (Routes.insert r key f)

/-! ## Runtime lifecycle and hot reload (`src/runtime.rs`) -/

/-- An interpreter instance (`mlua::Lua`), opaque except for identity. -/
structure VM where
  id : Nat
deriving DecidableEq, Repr

/-- The shared slot of `Runtime` that the claims are about:
`lua : Arc<Mutex<Option<Lua>>>` (runtime.rs:37). -/
structure RuntimeState where
  lua : Option VM
deriving DecidableEq, Repr

/-- `Runtime::set_lua` (runtime.rs:80-82): replace the slot contents. -/
def Runtime.set_lua (s : RuntimeState) (vm : VM) : RuntimeState :=
  { s with lua := some vm }

/-- `Runtime::new_lua` (runtime.rs:228-279) builds a fresh interpreter by a
sequence of fallible steps (create the state, register capabilities, run
the prelude, require the user's `app` module); every step is chained with
`?`, so the handle is produced only when every step succeeded, and the
first failing step's error is returned. The steps' effects are opaque here;
`vmId` identifies the fresh instance. -/
def Runtime.new_lua (vmId : Nat) : List (Except String Unit) → Except String VM
  | [] => .ok { id := vmId }
  | .ok () :: rest => Runtime.new_lua vmId rest
  | .error e :: _ => .error e

/-- `Runtime::restart_lua` (runtime.rs:199-204): build the new interpreter to
completion, then install it with `set_lua`; a build error returns early via
`?`, before `set_lua`. The pair is (state after the call, returned result). -/
def Runtime.restart_lua (s : RuntimeState) (build : Except String VM) :
    RuntimeState × Except String Unit :=
  match build with
  | .error e => (s, .error e)
  | .ok vm => (Runtime.set_lua s vm, .ok ())

/-- The `"runtime"` arm of the reload task spawned by `Runtime::start_watcher`
(runtime.rs:141-146): `if let Err(err) = runtime.restart_lua(&app).await`
logs `error restarting runtime` and continues; the task never propagates
the error. The pair is (state after the event, log lines emitted). -/
def watcherRuntimeStep (s : RuntimeState) (build : Except String VM) :
    RuntimeState × List String :=
  match Runtime.restart_lua s build with
  | (s₁, .error e) => (s₁, ["error restarting runtime: " ++ e])
  | (s₁, .ok ()) => (s₁, [])

/-- `checksums.entry(file).or_insert(new_checksum)` (watch.rs:36): returns
the stored checksum, inserting `new` first when the path is vacant; the
occupied value is never overwritten. -/
def entryOrInsert (m : List (String × Nat)) (k : String) (v : Nat) :
    Nat × List (String × Nat) :=
  match assocGet m k with
  | some old => (old, m)
  | none => (v, m ++ [(k, v)])

/-- The per-batch loop of `handle_event_failable` (watch.rs:30-40): skip
non-files, compute the new checksum, look up (or seed) the stored one, and
collect the paths whose new checksum differs. Returns (updated map, changed
paths in batch order). -/
def handleEventsLoop (isFile : String → Bool) (hash : String → Nat) :
    List (String × Nat) → List String → List (String × Nat) × List String
  | m, [] => (m, [])
  | m, f :: rest =>
      if isFile f then
        let p := entryOrInsert m f (hash f)
        let q := handleEventsLoop isFile hash p.2 rest
        if hash f ≠ p.1 then (q.1, f :: q.2) else (q.1, q.2)
      else
        handleEventsLoop isFile hash m rest

/-- `handle_event_failable` on an `Ok` batch (watch.rs:29-44): run the loop,
then send the changed list on the output channel only when it is non-empty
(`if !changed.is_empty() { self.changed_tx.blocking_send(changed)? }`).
Returns (updated checksum map, the notification sent, if any). -/
def handle_event_failable (isFile : String → Bool) (hash : String → Nat)
    (checksums : List (String × Nat)) (batch : List String) :
    List (String × Nat) × Option (List String) :=
  let r := handleEventsLoop isFile hash checksums batch
  (r.1, if r.2.isEmpty then none else some r.2)

/-! ## Response headers (`src/runtime/http.rs`, `src/command/serve.rs`)

`http::HeaderMap` is an append-ordered multimap; it is modelled by the list
of its (name, value) entries in insertion order. Header-name and
header-value parsing belongs to the external `http` crate: an invalid name
or value raises before the map is touched, so the model covers the writes
that reach `append`. -/

abbrev HeaderEntries := List (String × String)

/-- The `NewIndex` metamethod of `LuaHeaders` (http.rs:72-85): every
assignment `headers[key] = value` calls `HeaderMap::append`, which adds the
pair at the end and never overwrites or removes existing entries. -/
def LuaHeaders.luaNewIndex (h : HeaderEntries) (key value : String) : HeaderEntries :=
  h ++ [(key, value)]

/-- `LuaHeaders::new` via `Default` (http.rs:50-53, serve.rs new_response):
the empty map. -/
def LuaHeaders.new : HeaderEntries := []

/-- A sequence of script-side header assignments applied in order. -/
def applyHeaderWrites (h : HeaderEntries) (writes : List (String × String)) : HeaderEntries :=
  writes.foldl (fun acc kv => LuaHeaders.luaNewIndex acc kv.1 kv.2) h

/-- The header assembly of `LuaResponse::into_response` (serve.rs:233-253):
take the response's headers map, then `append("set-cookie", value)` once
per cookie-jar delta entry, in delta order (a delta whose serialisation
fails to parse as a header value is skipped by a `continue`; the modelled
deltas are the parseable ones). -/
def intoResponseHeaders (headers : HeaderEntries) (cookieDeltas : List String) : HeaderEntries :=
  headers ++ cookieDeltas.map (fun c => ("set-cookie", c))

/-! ## Database actor handle (`src/database.rs`) -/

/-- A clone-cheap handle to the database actor (database.rs:46-49); the
channel itself is opaque, the handle is identified for the purpose of
tracking which handle an error carries. -/
structure Database where
  handleId : Nat
deriving DecidableEq, Repr

/-- `database::Error` (database.rs:14-33); the `Close` variant carries the
`Database` handle back to the caller together with the rusqlite error, so
the close can be retried. -/
inductive DbError where
  | connectionClosed : DbError
  | close (db : Database) (e : String) : DbError
  | rusqlite (e : String) : DbError
deriving DecidableEq, Repr

/-- What `Database::close` observes after sending `Message::Close`: the send
itself fails (actor channel already closed), the oneshot reply channel is
dropped before a reply arrives, or a reply carrying `conn.close()`'s
result. -/
inductive CloseReply where
  | sendFailed : CloseReply
  | recvDropped : CloseReply
  | reply (r : Except String Unit) : CloseReply

/-- `Database::close` (database.rs:134-150): a failed send means the
connection already closed, so return `Ok(())`; a dropped reply channel
likewise returns `Ok(())`; a reply `Err(e)` becomes
`Error::Close(self, e)`, carrying the handle; a reply `Ok(())` is `Ok(())`. -/
def Database.close (db : Database) (outcome : CloseReply) : Except DbError Unit :=
  match outcome with
  | .sendFailed => .ok ()
  | .recvDropped => .ok ()
  | .reply (.error e) => .error (.close db e)
  | .reply (.ok ()) => .ok ()

/-- Messages of the actor loop (database.rs:40-43); `Execute` closures are
opaque, identified by an id. -/
inductive DbMessage where
  | execute (id : Nat) : DbMessage
  | close : DbMessage
deriving DecidableEq, Repr

/-- Observable actions of one `event_loop` run. -/
inductive DbReply where
  | executed (id : Nat) : DbReply
  | closeOk : DbReply
  | closeErr (e : String) : DbReply
deriving DecidableEq, Repr

/-- `event_loop` (database.rs:191-211): executes each message in arrival
order; on `Close`, `conn.close()` is attempted (`closeOutcome n` is the
result of the n-th attempt): success replies `Ok` and breaks the loop —
every later message is dropped, so later `close` calls on clones hit a
closed channel — while failure restores the connection, replies the error
and continues. -/
def event_loop (closeOutcome : Nat → Except String Unit) :
    Nat → List DbMessage → List DbReply
  | _, [] => []
  | n, .execute id :: rest => .executed id :: event_loop closeOutcome n rest
  | n, .close :: rest =>
      match closeOutcome n with
      | .ok () => [.closeOk]
      | .error e => .closeErr e :: event_loop closeOutcome (n + 1) rest

/-! ## Inbound request translation and the serve error path
(`src/runtime/http.rs`, `src/command/serve.rs`) -/

/-- The body-size limit passed to `axum::body::to_bytes` in `create_request`
(http.rs:219): `1024 * 1024 * 16` bytes. -/
def BODY_LIMIT : Nat := 1024 * 1024 * 16

/-- `axum::body::to_bytes(body, limit)`: reads the full body when its length
is within the limit and fails with a length-limit error when the body is
larger. -/
def to_bytes (limit : Nat) (body : List Nat) : Except String (List Nat) :=
  if body.length > limit then .error "length limit exceeded" else .ok body

/-- The parts of an inbound `http::Request` that `create_request` reads:
method, path, the raw query string (`parts.uri.query().unwrap_or("")`),
the content type, the raw values of all `cookie` headers
(`parts.headers.get_all("cookie")`), and the body stream's bytes. -/
structure HttpRequest where
  method : String
  path : String
  queryString : String
  contentType : String
  cookieHeaders : List String
  body : List Nat

/-- A cookie parsed from a `cookie` header and added to the request jar via
`add_original` (http.rs:215). -/
structure CookieData where
  name : String
  value : String
deriving DecidableEq, Repr

/-- The cookie loop of `create_request` (http.rs:211-216): each `cookie`
header value goes through `HeaderValue::to_str()?` and `Cookie::parse(..)?`
— both fallible, modelled together by the `parseCookie` parameter — and the
first failure aborts the whole translation with `?`, before the body is
read. -/
def parseCookieJar (parseCookie : String → Except String CookieData) :
    List String → Except String (List CookieData)
  | [] => .ok []
  | h :: rest =>
      match parseCookie h with
      | .error e => .error e
      | .ok c =>
          match parseCookieJar parseCookie rest with
          | .error e => .error e
          | .ok cs => .ok (c :: cs)

/-- The body field of the script-side request table: the form-decoded table
for `application/x-www-form-urlencoded` (decoded by `serde_urlencoded`,
modelled by the `decodeForm` parameter of `create_request`), raw bytes
otherwise. -/
inductive LuaBody where
  | form (decoded : List (String × String)) : LuaBody
  | raw (bytes : List Nat) : LuaBody
deriving DecidableEq, Repr

/-- The script-side request table fields populated by `create_request`. -/
structure LuaRequest where
  method : String
  path : String
  query : List (String × String)
  cookies : List CookieData
  body : LuaBody
deriving DecidableEq, Repr

/-- `create_request` (http.rs:200-243), with its fallible steps in source
order, every one chained with `?`: first the cookie headers are parsed
(http.rs:211-216), then the body is read through
`to_bytes(body, 1024 * 1024 * 16)` (http.rs:219), then the query string is
parsed by `serde_qs` (http.rs:226-227, modelled by `parseQuery`), and
finally the body is stored decoded according to `content-type`
(http.rs:231-238; the form decoding by `serde_urlencoded` is modelled by
`decodeForm`). External-crate parsers are function parameters. -/
def create_request (parseCookie : String → Except String CookieData)
    (parseQuery : String → Except String (List (String × String)))
    (decodeForm : List Nat → Except String (List (String × String)))
    (req : HttpRequest) : Except String LuaRequest :=
  match parseCookieJar parseCookie req.cookieHeaders with
  | .error e => .error e
  | .ok cookies =>
      match to_bytes (1024 * 1024 * 16) req.body with
      | .error e => .error e
      | .ok bytes =>
          match parseQuery req.queryString with
          | .error e => .error e
          | .ok query =>
              if req.contentType = "application/x-www-form-urlencoded" then
                match decodeForm bytes with
                | .error e => .error e
                | .ok form =>
                    .ok { method := req.method, path := req.path, query := query,
                          cookies := cookies, body := .form form }
              else
                .ok { method := req.method, path := req.path, query := query,
                      cookies := cookies, body := .raw bytes }

/-- A concrete model of `Cookie::parse` for the evaluations below: a header
value without a `name=value` pair fails (the cookie crate's missing-pair
error, as on the header value `junk`), otherwise the text up to the first
`=` is the name and the rest the value. -/
def cookieParseModel (s : String) : Except String CookieData :=
  if s.data.contains '=' then
    .ok { name := { data := s.data.takeWhile (fun c => c ≠ '=') },
          value := { data := (s.data.dropWhile (fun c => c ≠ '=')).drop 1 } }
  else
    .error "missing pair"

/-- The script-side response table (fields read by `into_response`). -/
structure LuaResponseTable where
  status : Nat
  body : List Nat
deriving DecidableEq, Repr

/-- An emitted HTTP response (status and body). -/
structure HttpResponse where
  status : Nat
  body : String
deriving DecidableEq, Repr

/-- `impl IntoResponse for LuaServeError` (serve.rs:149-157): every error on
the request path becomes status 500 with the stringified error in the
body. -/
def luaServeErrorResponse (e : String) : HttpResponse :=
  { status := 500, body := "error in lua serve function: " ++ e }

/-- `handle_request` (serve.rs:159-186) as far as the claim is concerned:
`create_request` runs before the route handler is called; an error in
either becomes `LuaServeError` and is rendered by `luaServeErrorResponse`;
otherwise the handler's response table is emitted. The handler is the
script function found in the route table. -/
def handle_request (parseCookie : String → Except String CookieData)
    (parseQuery : String → Except String (List (String × String)))
    (decodeForm : List Nat → Except String (List (String × String)))
    (handler : LuaRequest → Except String LuaResponseTable)
    (req : HttpRequest) : HttpResponse :=
  match create_request parseCookie parseQuery decodeForm req with
  | .error e => luaServeErrorResponse e
  | .ok luaReq =>
      match handler luaReq with
      | .error e => luaServeErrorResponse e
      | .ok res => { status := res.status, body := String.mk (res.body.map Char.ofNat) }

/-! ## Cookie master key (`src/runtime.rs`, `src/command/serve.rs`)

Key material (`cookie::Key` master bytes) is opaque; keys are byte lists.
The state tracks the relevant persistence sites: the `lg_internal(name,
value)` SQL table, the VM's named registry, and the `cookie_secret` file
next to `app.lua`. -/

abbrev CookieKey := List Nat

structure CookieKeyState where
  lgInternal : List (String × CookieKey)
  registry : List (String × CookieKey)
  cookieSecretFile : Option CookieKey

/-- Modelled from the spec: `http::set_cookie_key(&lua, db)` is called at
the end of `Runtime::new_lua` (runtime.rs:273-274) but its definition is not
among the sources under src/ (the `http.rs` present there carries an older
registration that stores a fresh random key). Per the spec (§3 Cookie Jar,
§4.6, §6): the master key is loaded from the internal table
`lg_internal(name, value)` row `name='cookie_key'`; on first use it is
generated (`freshKey`), persisted in that row, and in either case stored
under the reserved registry name `COOKIE_SECRET` inside the VM. -/
def set_cookie_key (freshKey : CookieKey) (st : CookieKeyState) : CookieKeyState :=
  match assocGet st.lgInternal "cookie_key" with
  | some k => { st with registry := assocSet st.registry "COOKIE_SECRET" k }
  | none =>
      { st with
          lgInternal := assocSet st.lgInternal "cookie_key" freshKey,
          registry := assocSet st.registry "COOKIE_SECRET" freshKey }

/-- The cookie-secret block of `Serve::run` (serve.rs:79-89), executed after
`runtime.start` (hence after `set_cookie_key`) on the same VM: if the
`cookie_secret` file exists its bytes become the key, otherwise a fresh key
(`freshKey`) is generated and written to the file; either way the VM
registry value `COOKIE_SECRET` is overwritten with that key. -/
def serveCookieSecretStep (freshKey : CookieKey) (st : CookieKeyState) : CookieKeyState :=
  match st.cookieSecretFile with
  | some k => { st with registry := assocSet st.registry "COOKIE_SECRET" k }
  | none =>
      { st with
          cookieSecretFile := some freshKey,
          registry := assocSet st.registry "COOKIE_SECRET" freshKey }

/-- The key-relevant part of serve startup: `Runtime::start` builds the VM
(running `set_cookie_key`), then `Serve::run` applies its cookie-secret
file block. -/
def serveStartup (dbFresh fileFresh : CookieKey) (st : CookieKeyState) : CookieKeyState :=
  serveCookieSecretStep fileFresh (set_cookie_key dbFresh st)

/-! ## Theorems -/

theorem assocGet_assocSet {α β : Type} [DecidableEq α]
    (l : List (α × β)) (k : α) (v : β) : assocGet (assocSet l k v) k = some v := by
  induction l with
  | nil => simp [assocGet, assocSet]
  | cons hd tl ih =>
      obtain ⟨k₀, v₀⟩ := hd
      by_cases h : k₀ = k
      · simp [assocGet, assocSet, h]
      · simp [assocGet, assocSet, h, ih]

theorem assocGet_assocDel {α β : Type} [DecidableEq α]
    (l : List (α × β)) (k : α) : assocGet (assocDel l k) k = none := by
  induction l with
  | nil => simp [assocGet, assocDel]
  | cons hd tl ih =>
      obtain ⟨k₀, v₀⟩ := hd
      by_cases h : k₀ = k
      · simp [assocDel, h, ih]
      · simp [assocGet, assocDel, h, ih]

theorem assocGet_append_single_ne {α β : Type} [DecidableEq α]
    (l : List (α × β)) (k k₀ : α) (v₀ : β) (h : k ≠ k₀) :
    assocGet (l ++ [(k₀, v₀)]) k = assocGet l k := by
  induction l with
  | nil =>
      simp only [List.nil_append, assocGet]
      rw [if_neg (fun h₀ => h h₀.symm)]
  | cons hd tl ih =>
      obtain ⟨k₁, v₁⟩ := hd
      by_cases hk : k₁ = k
      · simp [assocGet, hk]
      · simp [assocGet, hk, ih]

/-! ## Claim theorems: global store -/

/-- C1. Global Table round-trip: writing `t[k] = v` through the `NewIndex`
metamethod and reading `x = t[k]` through the `Index` metamethod yields `v`
again, for every table state, every Lua key (integer or stringified) and
every JSON value; moreover the write path and the read path convert the key
identically, hence select the same key column. -/
theorem globalTable_set_get_roundtrip (st : GlobalTableState) (k : LuaKey) (v : Json) :
    GlobalTable.luaIndex (GlobalTable.luaNewIndex st k (some v)) k = some v ∧
    luaNewIndexKey k = GlobalTableKey.tryFromLua k ∧
    (luaNewIndexKey k).column = (GlobalTableKey.tryFromLua k).column := by
  refine ⟨?_, ?_, ?_⟩
  · cases k with
    | integer i =>
        simp [GlobalTable.luaIndex, GlobalTable.luaNewIndex, GlobalTable.get,
          GlobalTable.set, luaNewIndexKey, GlobalTableKey.tryFromLua,
          assocGet_assocSet]
    | other s =>
        simp [GlobalTable.luaIndex, GlobalTable.luaNewIndex, GlobalTable.get,
          GlobalTable.set, luaNewIndexKey, GlobalTableKey.tryFromLua,
          assocGet_assocSet]
  · cases k <;> rfl
  · cases k <;> rfl

/-- C2 (failing evaluation). `GlobalTable::len` on an empty table: the query
`SELECT max(key_int)` yields SQL NULL and the `usize` read fails with
`InvalidColumnType`, so `len()` returns an error instead of `0`; on a table
whose integer keys are `3` and `7`, `len()` returns `7` (the maximum integer
key) as the claim states. -/
theorem globalTable_len_empty_fails :
    GlobalTable.len { intRows := [], strRows := [] } =
      .error RusqliteError.invalidColumnType ∧
    GlobalTable.len { intRows := [(3, Json.null), (7, Json.bool true)], strRows := [] } =
      .ok 7 := by
  constructor
  · rfl
  · rfl

/-- C7. Global namespace guard: for every store and table name, assigning
`nil` through `global.name = nil` destroys the backing SQL table (it is
absent from the store afterwards) and raises no error, while assigning any
non-nil value raises `cannot set value on global` and leaves the store
unchanged. -/
theorem global_namespace_guard (store : GlobalStore) (name : String) :
    (Global.luaNewIndex store name none =
        (GlobalTable.destroy store name, none) ∧
      assocGet (Global.luaNewIndex store name none).1 (sql_name name) = none) ∧
    (∀ v : Json, Global.luaNewIndex store name (some v) =
        (store, some "cannot set value on global")) := by
  refine ⟨⟨rfl, ?_⟩, fun v => rfl⟩
  simp [Global.luaNewIndex, GlobalTable.destroy, assocGet_assocDel]

/-! ## Claim theorems: routes and hot reload -/

/-- C4 counterexample: assigning a handler under the key `"foo"`, which does
not start with `/`, is not rejected — the `NewIndex` metamethod returns
successfully and the route table afterwards contains the handler under
`"foo"`. -/
theorem routes_no_slash_insert_succeeds :
    Routes.luaNewIndex ({ tree := [] } : Routes Nat) "foo" 7 =
      .ok ({ tree := [("foo", 7)] }, 1) ∧
    assocGet ((({ tree := [] } : Routes Nat).insert "foo" 7).1).tree "foo" = some 7 := by
  constructor
  · rfl
  · rfl

/-- C4 amended: route insertion performs no validation of the key: for every
route table, every key string (whether or not it starts with `/`) and every
handler, `routes[key] = handler` succeeds and stores the handler under that
key. -/
theorem routes_insert_accepts_any_key {H : Type} (r : Routes H) (key : String) (f : H) :
    ∃ r₁ : Routes H × Nat, Routes.luaNewIndex r key f = .ok r₁ ∧
      assocGet r₁.1.tree key = some f := by
  refine ⟨Routes.insert r key f, rfl, ?_⟩
  simp [Routes.insert, assocGet_assocSet]

/-- C5. Hot-reload atomicity: if `new_lua` fails at any step (every earlier
step succeeded, one step errors), the reload task leaves the VM slot exactly
as it was — the previously installed VM stays current — and logs the error
instead of propagating it; and when every step succeeds, the slot is
replaced with the fully built VM. -/
theorem reload_keeps_old_vm_on_failure :
    (∀ (s : RuntimeState) (vmId : Nat) (pre post : List (Except String Unit)) (e : String),
      (∀ x ∈ pre, x = .ok ()) →
      Runtime.new_lua vmId (pre ++ .error e :: post) = .error e ∧
      watcherRuntimeStep s (Runtime.new_lua vmId (pre ++ .error e :: post)) =
        (s, ["error restarting runtime: " ++ e])) ∧
    (∀ (s : RuntimeState) (vmId : Nat) (steps : List (Except String Unit)),
      (∀ x ∈ steps, x = .ok ()) →
      watcherRuntimeStep s (Runtime.new_lua vmId steps) =
        ({ lua := some { id := vmId } }, [])) := by
  constructor
  · intro s vmId pre post e hpre
    have hbuild : Runtime.new_lua vmId (pre ++ .error e :: post) = .error e := by
      induction pre with
      | nil => rfl
      | cons hd tl ih =>
          have hhd := hpre hd (List.mem_cons_self hd tl)
          subst hhd
          exact ih (fun x hx => hpre x (List.mem_cons_of_mem _ hx))
    refine ⟨hbuild, ?_⟩
    rw [hbuild]
    rfl
  · intro s vmId steps hsteps
    have hbuild : Runtime.new_lua vmId steps = .ok { id := vmId } := by
      induction steps with
      | nil => rfl
      | cons hd tl ih =>
          have hhd := hsteps hd (List.mem_cons_self hd tl)
          subst hhd
          exact ih (fun x hx => hsteps x (List.mem_cons_of_mem _ hx))
    rw [hbuild]
    rfl

/-- C5 witness: a concrete reload in which the prelude step succeeds and
requiring the `app` module fails: the slot that held VM 1 still holds VM 1
afterwards, the error is logged; and a fully successful rebuild installs
VM 2. -/
theorem reload_keeps_old_vm_on_failure_witness :
    (Runtime.new_lua 2 [.ok (), .error "module app not found"] =
        .error "module app not found" ∧
      watcherRuntimeStep { lua := some { id := 1 } }
          (Runtime.new_lua 2 [.ok (), .error "module app not found"]) =
        ({ lua := some { id := 1 } },
          ["error restarting runtime: " ++ "module app not found"])) ∧
    watcherRuntimeStep { lua := some { id := 1 } } (Runtime.new_lua 2 [.ok (), .ok ()]) =
      ({ lua := some { id := 2 } }, []) := by
  constructor
  · exact reload_keeps_old_vm_on_failure.1 { lua := some { id := 1 } } 2
      [.ok ()] [] "module app not found" (by intro x hx; simpa using hx)
  · exact reload_keeps_old_vm_on_failure.2 { lua := some { id := 1 } } 2
      [.ok (), .ok ()]
      (by intro x hx; rcases List.mem_cons.mp hx with h | h; exact h; simpa using h)

/-! ## Change detector (`src/watch.rs`)

`EventHandler::handle_event_failable` (watch.rs:26-57) processes one
debounced event batch against the per-path checksum map
(`HashMap<PathBuf, u64>`). File-system reads are abstracted: `isFile`
says whether a path is a regular file, `hash` gives the content checksum
(`checksum_file`, xxh3) the read would produce during this batch. -/

theorem assocGet_append_single_self {α β : Type} [DecidableEq α]
    (l : List (α × β)) (k : α) (v : β) (h : assocGet l k = none) :
    assocGet (l ++ [(k, v)]) k = some v := by
  induction l with
  | nil => simp [assocGet]
  | cons hd tl ih =>
      obtain ⟨k₀, v₀⟩ := hd
      by_cases hk : k₀ = k
      · simp [assocGet, hk] at h
      · simp only [assocGet, hk, if_false, List.cons_append] at h ⊢
        simp [assocGet, hk, ih h]

theorem handleEventsLoop_noop (isFile : String → Bool) (hash : String → Nat)
    (m : List (String × Nat)) (batch : List String)
    (h : ∀ f ∈ batch, isFile f = true → assocGet m f = some (hash f)) :
    handleEventsLoop isFile hash m batch = (m, []) := by
  induction batch with
  | nil => rfl
  | cons f rest ih =>
      have hrest : ∀ g ∈ rest, isFile g = true → assocGet m g = some (hash g) :=
        fun g hg => h g (List.mem_cons_of_mem _ hg)
      by_cases hf : isFile f
      · have hstored := h f (List.mem_cons_self f rest) hf
        simp only [handleEventsLoop, hf, if_true, entryOrInsert, hstored, ih hrest,
          ne_eq, not_true_eq_false, if_false, ite_self]
      · simp only [handleEventsLoop, hf, if_false]
        exact ih hrest

theorem handleEventsLoop_changed_mem (isFile : String → Bool) (hash : String → Nat)
    (m : List (String × Nat)) (batch : List String) (f : String)
    (hmem : f ∈ (handleEventsLoop isFile hash m batch).2) :
    isFile f = true ∧ ∃ old, assocGet m f = some old ∧ old ≠ hash f := by
  induction batch generalizing m with
  | nil => simp [handleEventsLoop] at hmem
  | cons g rest ih =>
      by_cases hg : isFile g
      · rcases hstored : assocGet m g with _ | old
        · -- vacant entry: `or_insert` seeds `hash g`, so new = stored and `g`
          -- itself is not emitted; the recursion sees the seeded map
          have hop : entryOrInsert m g (hash g) = (hash g, m ++ [(g, hash g)]) := by
            simp [entryOrInsert, hstored]
          have hmem₁ : f ∈ (handleEventsLoop isFile hash (m ++ [(g, hash g)]) rest).2 := by
            simp only [handleEventsLoop, hg, if_true, hop, ne_eq, not_true_eq_false,
              if_false, ite_self] at hmem
            exact hmem
          obtain ⟨hfile, old₁, hget₁, hne₁⟩ := ih (m ++ [(g, hash g)]) hmem₁
          refine ⟨hfile, ?_⟩
          by_cases hfg : f = g
          · subst hfg
            rw [assocGet_append_single_self m f (hash f) hstored] at hget₁
            cases hget₁
            exact absurd rfl hne₁
          · rw [assocGet_append_single_ne m f g (hash g) hfg] at hget₁
            exact ⟨old₁, hget₁, hne₁⟩
        · -- occupied entry: the map passed on is unchanged; `g` is emitted
          -- only if the new checksum differs from the stored one
          have hop : entryOrInsert m g (hash g) = (old, m) := by
            simp [entryOrInsert, hstored]
          simp only [handleEventsLoop, hg, if_true, hop] at hmem
          by_cases hne : hash g ≠ old
          · rw [if_pos hne] at hmem
            rcases List.mem_cons.mp hmem with hfg | hrest₁
            · subst hfg
              exact ⟨hg, old, hstored, fun hc => hne hc.symm⟩
            · exact ih m hrest₁
          · rw [if_neg hne] at hmem
            exact ih m hmem
      · simp only [handleEventsLoop, hg, if_false] at hmem
        exact ih m hmem

/-- C6. Change-detector no-op suppression: (a) when every regular file of a
debounced batch hashes to exactly the checksum already stored for it, the
handler sends nothing on the output channel (and the map is unchanged);
(b) whenever a notification is sent, every path in it is a regular file
whose stored checksum existed and differs from the newly computed one. -/
theorem watcher_noop_suppression (isFile : String → Bool) (hash : String → Nat)
    (checksums : List (String × Nat)) (batch : List String) :
    ((∀ f ∈ batch, isFile f = true → assocGet checksums f = some (hash f)) →
      handle_event_failable isFile hash checksums batch = (checksums, none)) ∧
    (∀ sent, (handle_event_failable isFile hash checksums batch).2 = some sent →
      ∀ f ∈ sent, isFile f = true ∧
        ∃ old, assocGet checksums f = some old ∧ old ≠ hash f) := by
  constructor
  · intro h
    simp [handle_event_failable, handleEventsLoop_noop isFile hash checksums batch h]
  · intro sent hsent f hf
    have hmem : f ∈ (handleEventsLoop isFile hash checksums batch).2 := by
      simp only [handle_event_failable] at hsent
      by_cases hempty : (handleEventsLoop isFile hash checksums batch).2.isEmpty
      · rw [if_pos hempty] at hsent
        exact absurd hsent (by simp)
      · rw [if_neg hempty] at hsent
        rw [Option.some.injEq] at hsent
        rw [hsent]
        exact hf
    exact handleEventsLoop_changed_mem isFile hash checksums batch f hmem

/-- C6 witness: with `a.lua` stored at checksum 7, a batch that re-reads
checksum 7 sends nothing; a batch that reads checksum 9 sends `[a.lua]`,
and the theorem recovers that the stored checksum 7 differs from 9. -/
theorem watcher_noop_suppression_witness :
    handle_event_failable (fun _ => true) (fun _ => 7) [("a.lua", 7)] ["a.lua"] =
      ([("a.lua", 7)], none) ∧
    (∃ old, assocGet [("a.lua", 7)] "a.lua" = some old ∧ old ≠ (fun _ => 9) "a.lua") := by
  constructor
  · exact (watcher_noop_suppression (fun _ => true) (fun _ => 7) [("a.lua", 7)]
      ["a.lua"]).1 (by intro f hf _; simp only [List.mem_singleton] at hf; simp [hf, assocGet])
  · exact ((watcher_noop_suppression (fun _ => true) (fun _ => 9) [("a.lua", 7)]
      ["a.lua"]).2 ["a.lua"] (by decide) "a.lua" (by decide)).2

theorem applyHeaderWrites_eq (h : HeaderEntries) (writes : List (String × String)) :
    applyHeaderWrites h writes = h ++ writes := by
  induction writes generalizing h with
  | nil => simp [applyHeaderWrites]
  | cons w rest ih =>
      simp only [applyHeaderWrites, List.foldl_cons] at *
      rw [ih (LuaHeaders.luaNewIndex h w.1 w.2)]
      simp [LuaHeaders.luaNewIndex]

/-- C8. Header write multiplicity: starting from the fresh response's empty
header map, a sequence of header assignments yields exactly that sequence,
followed by one `set-cookie` entry per cookie-jar delta; consequently every
(name, value) pair occurs in the emitted headers exactly as many times as
it was assigned, plus its occurrences among the `set-cookie` deltas —
writes are never overwritten or dropped. -/
theorem response_header_multiplicity (writes : List (String × String))
    (cookieDeltas : List String) (p : String × String) :
    intoResponseHeaders (applyHeaderWrites LuaHeaders.new writes) cookieDeltas =
      writes ++ cookieDeltas.map (fun c => ("set-cookie", c)) ∧
    List.count p (intoResponseHeaders (applyHeaderWrites LuaHeaders.new writes) cookieDeltas) =
      List.count p writes +
        List.count p (cookieDeltas.map (fun c => ("set-cookie", c))) := by
  have h : intoResponseHeaders (applyHeaderWrites LuaHeaders.new writes) cookieDeltas =
      writes ++ cookieDeltas.map (fun c => ("set-cookie", c)) := by
    rw [intoResponseHeaders, applyHeaderWrites_eq]
    simp [LuaHeaders.new]
  exact ⟨h, by rw [h, List.count_append]⟩

/-- C9. Close on an already-closed database succeeds: `Database::close`
returns `Ok(())` when the actor channel is already closed, when the reply
channel drops mid-close, and on a successful close reply; only an
underlying SQLite close failure yields an error, and that error is
`Error::Close` carrying the very same `Database` handle for retry.
Moreover the actor loop stops after a successful close (subsequent
messages are dropped), while a failed close keeps serving. -/
theorem database_close_already_closed_ok (db : Database) :
    Database.close db .sendFailed = .ok () ∧
    Database.close db .recvDropped = .ok () ∧
    Database.close db (.reply (.ok ())) = .ok () ∧
    (∀ e, Database.close db (.reply (.error e)) = .error (.close db e)) ∧
    event_loop (fun _ => .ok ()) 0 [.close, .execute 5] = [.closeOk] ∧
    event_loop (fun _ => .error "busy") 0 [.close, .execute 5] =
      [.closeErr "busy", .executed 5] := by
  exact ⟨rfl, rfl, rfl, fun e => rfl, rfl, rfl⟩

/-- C10 counterexample: a request whose 3-byte body is far below the
16 MiB limit, but whose single `cookie` header `junk` carries no
`name=value` pair: the cookie loop — which the source runs before the body
read — fails `Cookie::parse`, so `create_request` errors and the request
table is never built; the within-limit request does not get its body read
in full, refuting that conjunct of the claim. -/
theorem create_request_within_limit_cookie_failure :
    List.length [104, 105, 33] ≤ BODY_LIMIT ∧
    create_request cookieParseModel (fun _ => .ok []) (fun _ => .ok [])
        { method := "GET", path := "/", queryString := "",
          contentType := "text/plain", cookieHeaders := ["junk"],
          body := [104, 105, 33] } =
      .error "missing pair" := by
  constructor
  · norm_num [BODY_LIMIT]
  · rfl

/-- C10 amended. Inbound request body size limit: the limit is the fixed
constant 16 MiB; every request whose body exceeds it makes `create_request`
fail, is answered with status 500 and never reaches the script handler
(the outcome is the same whichever handler is installed); a within-limit
request has its body read in full provided its cookie headers parse —
cookie parsing precedes the body read — and the translation completes with
the full body stored in the request table when additionally the query
string parses and, for form content type, the body form-decodes. -/
theorem request_body_limit_amended
    (parseCookie : String → Except String CookieData)
    (parseQuery : String → Except String (List (String × String)))
    (decodeForm : List Nat → Except String (List (String × String)))
    (handler handler₁ : LuaRequest → Except String LuaResponseTable)
    (req : HttpRequest) :
    (1024 * 1024 * 16 = BODY_LIMIT) ∧
    (req.body.length > BODY_LIMIT →
      (∃ e, create_request parseCookie parseQuery decodeForm req = .error e) ∧
      (handle_request parseCookie parseQuery decodeForm handler req).status = 500 ∧
      handle_request parseCookie parseQuery decodeForm handler req =
        handle_request parseCookie parseQuery decodeForm handler₁ req) ∧
    (req.body.length ≤ BODY_LIMIT →
      to_bytes (1024 * 1024 * 16) req.body = .ok req.body ∧
      (∀ cookies query,
        parseCookieJar parseCookie req.cookieHeaders = .ok cookies →
        parseQuery req.queryString = .ok query →
        (req.contentType ≠ "application/x-www-form-urlencoded" →
          create_request parseCookie parseQuery decodeForm req =
            .ok { method := req.method, path := req.path, query := query,
                  cookies := cookies, body := .raw req.body }) ∧
        (∀ form, req.contentType = "application/x-www-form-urlencoded" →
          decodeForm req.body = .ok form →
          create_request parseCookie parseQuery decodeForm req =
            .ok { method := req.method, path := req.path, query := query,
                  cookies := cookies, body := .form form }))) := by
  have hlimit : (1024 * 1024 * 16 : Nat) = BODY_LIMIT := rfl
  refine ⟨hlimit, ?_, ?_⟩
  · intro hover
    have hbytes : to_bytes (1024 * 1024 * 16) req.body = .error "length limit exceeded" := by
      rw [to_bytes, if_pos (by rw [hlimit]; exact hover)]
    have hfail : ∃ e, create_request parseCookie parseQuery decodeForm req = .error e := by
      rcases hjar : parseCookieJar parseCookie req.cookieHeaders with e | cookies
      · exact ⟨e, by rw [create_request, hjar]⟩
      · exact ⟨"length limit exceeded", by rw [create_request, hjar, hbytes]⟩
    obtain ⟨e, he⟩ := hfail
    refine ⟨⟨e, he⟩, ?_, ?_⟩
    · rw [handle_request, he]
      rfl
    · rw [handle_request, handle_request, he]
  · intro hunder
    have hbytes : to_bytes (1024 * 1024 * 16) req.body = .ok req.body := by
      rw [to_bytes, if_neg (by rw [hlimit]; exact Nat.not_lt.mpr hunder)]
    refine ⟨hbytes, ?_⟩
    intro cookies query hjar hquery
    constructor
    · intro hraw
      simp only [create_request, hjar, hbytes, hquery]
      rw [if_neg hraw]
    · intro form hform hdecode
      simp only [create_request, hjar, hbytes, hquery]
      rw [if_pos hform]
      simp only [hdecode]

/-- C10 witness: a body of 16 MiB + 1 zero bytes is answered 500 regardless
of the installed handler, and a 3-byte body with the parseable cookie
header `a=b` and an empty query string is read in full into the request
table. -/
theorem request_body_limit_amended_witness :
    ((handle_request cookieParseModel (fun _ => .ok []) (fun _ => .ok [])
        (fun _ => .error "unused")
        { method := "POST", path := "/", queryString := "",
          contentType := "text/plain", cookieHeaders := [],
          body := List.replicate (BODY_LIMIT + 1) 0 }).status = 500) ∧
    create_request cookieParseModel (fun _ => .ok []) (fun _ => .ok [])
        { method := "GET", path := "/", queryString := "",
          contentType := "text/plain", cookieHeaders := ["a=b"],
          body := [104, 105, 33] } =
      .ok { method := "GET", path := "/", query := [],
            cookies := [{ name := "a", value := "b" }],
            body := .raw [104, 105, 33] } := by
  constructor
  · exact ((request_body_limit_amended cookieParseModel (fun _ => .ok [])
      (fun _ => .ok []) (fun _ => .error "unused") (fun _ => .error "unused")
      { method := "POST", path := "/", queryString := "",
        contentType := "text/plain", cookieHeaders := [],
        body := List.replicate (BODY_LIMIT + 1) 0 }).2.1
      (by simp)).2.1
  · exact (((request_body_limit_amended cookieParseModel (fun _ => .ok [])
      (fun _ => .ok []) (fun _ => .error "unused") (fun _ => .error "unused")
      { method := "GET", path := "/", queryString := "",
        contentType := "text/plain", cookieHeaders := ["a=b"],
        body := [104, 105, 33] }).2.2
      (by norm_num [BODY_LIMIT])).2 [{ name := "a", value := "b" }] []
      (by rfl) (by rfl)).1 (by decide)

/-- C3 counterexample: a start in which `lg_internal.cookie_key` holds the
key `[0]` and the `cookie_secret` file holds `[1]`. After serve startup the
row still holds `[0]`, but the VM's signing key — the registry value
`COOKIE_SECRET` — is the file key `[1]`, not the key loaded from the row:
the claim that the VM's key is the one loaded from `lg_internal` on every
subsequent start fails. -/
theorem cookie_key_vm_uses_file_key :
    assocGet (serveStartup [2] [3]
        { lgInternal := [("cookie_key", [0])], registry := [],
          cookieSecretFile := some [1] }).lgInternal "cookie_key" = some [0] ∧
    assocGet (serveStartup [2] [3]
        { lgInternal := [("cookie_key", [0])], registry := [],
          cookieSecretFile := some [1] }).registry "COOKIE_SECRET" = some [1] ∧
    ([1] : CookieKey) ≠ [0] := by
  exact ⟨rfl, rfl, by decide⟩

/-- C3 amended: `set_cookie_key` generates and persists the master key in
`lg_internal` under `name='cookie_key'` on first use, leaves an existing
row untouched, and installs the row's key in the VM registry during every
VM construction; but on serve startup the registry key is then replaced by
the key persisted in the `cookie_secret` file (itself generated on first
use), so the key the serving VM signs with is the file key. -/
theorem cookie_key_persistence (freshKey : CookieKey) (st : CookieKeyState) :
    (assocGet st.lgInternal "cookie_key" = none →
      assocGet (set_cookie_key freshKey st).lgInternal "cookie_key" = some freshKey ∧
      assocGet (set_cookie_key freshKey st).registry "COOKIE_SECRET" = some freshKey) ∧
    (∀ k, assocGet st.lgInternal "cookie_key" = some k →
      (set_cookie_key freshKey st).lgInternal = st.lgInternal ∧
      assocGet (set_cookie_key freshKey st).registry "COOKIE_SECRET" = some k) ∧
    (∀ fileKey, st.cookieSecretFile = some fileKey →
      assocGet (serveCookieSecretStep freshKey st).registry "COOKIE_SECRET" =
        some fileKey) ∧
    (st.cookieSecretFile = none →
      (serveCookieSecretStep freshKey st).cookieSecretFile = some freshKey ∧
      assocGet (serveCookieSecretStep freshKey st).registry "COOKIE_SECRET" =
        some freshKey) := by
  refine ⟨?_, ?_, ?_, ?_⟩
  · intro hnone
    rw [set_cookie_key, hnone]
    exact ⟨assocGet_assocSet _ _ _, assocGet_assocSet _ _ _⟩
  · intro k hsome
    rw [set_cookie_key, hsome]
    exact ⟨rfl, assocGet_assocSet _ _ _⟩
  · intro fileKey hfile
    rw [serveCookieSecretStep, hfile]
    exact assocGet_assocSet _ _ _
  · intro hnone
    rw [serveCookieSecretStep, hnone]
    exact ⟨rfl, assocGet_assocSet _ _ _⟩

/-- C3 witness: on a state with no stored row and no file, `set_cookie_key`
persists the generated key `[4]` and installs it; a later construction over
the persisted row installs `[4]` again; the serve file block with file key
`[5]` installs `[5]`. -/
theorem cookie_key_persistence_witness :
    (assocGet (set_cookie_key [4]
        { lgInternal := [], registry := [], cookieSecretFile := none }).lgInternal
        "cookie_key" = some [4] ∧
      assocGet (set_cookie_key [4]
        { lgInternal := [], registry := [], cookieSecretFile := none }).registry
        "COOKIE_SECRET" = some [4]) ∧
    assocGet (set_cookie_key [9]
        { lgInternal := [("cookie_key", [4])], registry := [],
          cookieSecretFile := none }).registry "COOKIE_SECRET" = some [4] ∧
    assocGet (serveCookieSecretStep [9]
        { lgInternal := [("cookie_key", [4])], registry := [],
          cookieSecretFile := some [5] }).registry "COOKIE_SECRET" = some [5] := by
  refine ⟨?_, ?_, ?_⟩
  · exact (cookie_key_persistence [4]
      { lgInternal := [], registry := [], cookieSecretFile := none }).1 rfl
  · exact ((cookie_key_persistence [9]
      { lgInternal := [("cookie_key", [4])], registry := [],
        cookieSecretFile := none }).2.1 [4] rfl).2
  · exact (cookie_key_persistence [9]
      { lgInternal := [("cookie_key", [4])], registry := [],
        cookieSecretFile := some [5] }).2.2.1 [5] rfl
